import Mathlib

/-!
Shallow embedding of the antrea packet-capture agent
(`pkg/capture/manager.go`, `pkg/controller/controller.go`).

The Go program is a node-local controller: it watches pod snapshots,
and for each pod with the annotation `tcpdump.antrea.io` it starts a
tcpdump child process inside the pod's network namespace, keyed by the
pod's `namespace/name` string in a mutex-guarded map
`captures : map[string]context.CancelFunc`.  We model:

* the capture table plus the on-disk artifact files as `MState`;
* `SyncCapture`, `stop`, `cleanupFiles`, `StopCaptureByKey` as pure
  state transformers that additionally report which capture goroutines
  were spawned and which cancel handles were triggered;
* the goroutine body `runTcpdump` as a function of an environment
  (`/proc` contents and how the child process eventually exits);
* `findPidByContainerID` over a model of the `/proc` listing;
* the work-pipeline pieces `syncHandler` / `handleErr` of
  `controller.go`, with the client-go rate-limiting queue contract
  (`NumRequeues` / `AddRateLimited` / `Forget`) modelled from the spec.

Go string primitives (`strings.Split`, `strings.Contains`,
`fmt.Sscanf` with `"%d"`, glob by literal prefix) are given executable
models over `List Char` so every concrete run can be evaluated by
`decide`.
-/

namespace PacketCapture

/-- Model of Go `strings.Split`'s first step: find the first occurrence
of `sep` in the character list, returning the part before it and the
remainder after it. `none` when `sep` does not occur. -/
def firstSplitAux (sep : List Char) : List Char → Option (List Char × List Char)
  | [] => none
  | c :: cs =>
    if sep.isPrefixOf (c :: cs) then some ([], (c :: cs).drop sep.length)
    else
      match firstSplitAux sep cs with
      | none => none
      | some ab => some (c :: ab.fst, ab.snd)

/-- Repeatedly split at `sep`; `fuel` bounds the recursion and is chosen
larger than the input length, which suffices for non-empty `sep`. -/
def splitFuel (sep : List Char) : Nat → List Char → List (List Char)
  | 0, l => [l]
  | Nat.succ fuel, l =>
    match firstSplitAux sep l with
    | none => [l]
    | some ab => ab.fst :: splitFuel sep fuel ab.snd

/-- Model of Go `strings.Split s sep` for non-empty `sep`: the list of
maximal segments between non-overlapping occurrences of `sep`. -/
def goSplit (s sep : String) : List String :=
  (splitFuel sep.toList (s.toList.length + 1) s.toList).map String.mk

/-- Occurrence test on character lists: does `pat` occur as a contiguous
subsequence? Model of Go `strings.Contains`. -/
def containsSeq (pat : List Char) : List Char → Bool
  | [] => pat.isEmpty
  | c :: cs => pat.isPrefixOf (c :: cs) || containsSeq pat cs

/-- Membership in a list of strings, modelling a Go `map` key test. -/
def memStr (k : String) : List String → Bool
  | [] => false
  | x :: rest => if x = k then true else memStr k rest

/-- Removal of a key, modelling Go `delete(m, k)` on a map. -/
def removeStr (k : String) : List String → List String
  | [] => []
  | x :: rest => if x = k then removeStr k rest else x :: removeStr k rest

/-- Association-list lookup, modelling a Go `map[string]V` read. -/
def lookupAssoc {β : Type} (k : String) : List (String × β) → Option β
  | [] => none
  | (a, b) :: rest => if a = k then some b else lookupAssoc k rest

/-- Association-list key removal, modelling Go `delete` on a map. -/
def removeAssoc {β : Type} (k : String) : List (String × β) → List (String × β)
  | [] => []
  | (a, b) :: rest => if a = k then removeAssoc k rest else (a, b) :: removeAssoc k rest

/-- Value of a digit character. -/
def digitsToNat (ds : List Char) : Nat :=
  ds.foldl (fun acc c => acc * 10 + (c.toNat - 48)) 0

/-- Leading decimal-digit run, `none` when there is none. -/
def digitsOpt (cs : List Char) : Option Nat :=
  let ds := cs.takeWhile (fun c => c.isDigit)
  if ds.isEmpty then none else some (digitsToNat ds)

/-- Sign-and-digits part of `fmt.Sscanf` with verb `"%d"`. -/
def sscanfDCore : List Char → Option Int
  | [] => none
  | c :: cs =>
    if c = '-' then (digitsOpt cs).map (fun n => -(Int.ofNat n))
    else if c = '+' then (digitsOpt cs).map Int.ofNat
    else (digitsOpt (c :: cs)).map Int.ofNat

/-- Model of Go `fmt.Sscanf(s, "%d", &i)`: skip leading whitespace, read
an optional sign and at least one digit; trailing characters are
ignored, as `Sscanf` stops once the format is exhausted. -/
def sscanfD (s : String) : Option Int :=
  sscanfDCore (s.toList.dropWhile (fun c => c.isWhitespace))

/-- The pod annotation key `tcpdump.antrea.io` (manager.go line 18). -/
def annKey : String := "tcpdump.antrea.io"

/-- The fixed artifact directory (manager.go line 19). -/
def CaptureDir : String := "/var/log/antrea-captures"

/-- One entry of `pod.Status.ContainerStatuses`: only the runtime URI
`ContainerID` is consumed by the program. -/
structure ContainerStatus where
  containerID : String
deriving DecidableEq

/-- The fields of `corev1.Pod` that the program reads.  `ns` models
`pod.Namespace`; `uid` models `pod.UID` (never read by the manager);
`deletionTimestamp` is `none` when the pod carries no deletion marker;
`annotations` models the string-to-string annotation map. -/
structure Pod where
  ns : String
  name : String
  uid : String
  annotations : List (String × String)
  deletionTimestamp : Option Nat
  containerStatuses : List ContainerStatus
deriving DecidableEq

/-- The `namespace/name` key (manager.go line 40). -/
def podKey (p : Pod) : String := p.ns ++ "/" ++ p.name

/-- Manager state: the `captures` table (set of keys with a registered
cancel handle) and the artifact files currently on disk, as full
paths. -/
structure MState where
  table : List String
  files : List String
deriving DecidableEq

/-- The artifact path `filepath.Join(CaptureDir, "capture-<podName>.pcap")`
(manager.go line 137).  Note the namespace is not part of the name. -/
def pcapFilePath (podName : String) : String :=
  CaptureDir ++ "/capture-" ++ podName ++ ".pcap"

/-- Whether file `f` matches the glob `capture-<podName>.pcap*`
(manager.go line 89).  Pod names contain no glob metacharacters, so the
glob matches exactly the files having the literal pattern stem as a
prefix. -/
def matchesGlob (podName f : String) : Bool :=
  (pcapFilePath podName).toList.isPrefixOf f.toList

/-- `cleanupFiles` (manager.go lines 87-102): unlink every file matching
`capture-<podName>.pcap*`; returns the files remaining on disk. -/
def cleanupFiles (podName : String) (files : List String) : List String :=
  files.filter (fun f => !(matchesGlob podName f))

/-- `stop` (manager.go lines 79-85): when the key has a table entry,
trigger its cancel handle, delete the entry and delete the matching
artifact files; otherwise do nothing.  The second component is the list
of keys whose cancel handle was triggered. -/
def stop (s : MState) (key : String) (podName : String) : MState × List String :=
  if memStr key s.table then
    (⟨removeStr key s.table, cleanupFiles podName s.files⟩, [key])
  else (s, [])

/-- `StopCaptureByKey` (manager.go lines 67-77): derive the pod name
from the `namespace/name` key (second `/`-segment when present, else
the key itself) and call `stop`. -/
def StopCaptureByKey (s : MState) (key : String) : MState × List String :=
  let parts := goSplit key "/"
  let podName :=
    match parts with
    | _ :: p :: _ => p
    | _ => key
  stop s key podName

/-- Result of one `SyncCapture` call: the new state, the keys for which
a `runTcpdump` goroutine was spawned, the keys whose cancel handle was
triggered, and the returned error (`nil` modelled as `none`). -/
structure SyncOut where
  state : MState
  spawned : List String
  canceled : List String
  err : Option String
deriving DecidableEq

/-- `SyncCapture` (manager.go lines 36-65), the synchronous part run
under the mutex: read `hasAnn` and `isRunning` once, then
(1) start when annotated and not running, (2) stop when unannotated and
running, (3) stop when the deletion marker is set and `isRunning` was
true at entry.  Always returns `nil`. -/
def SyncCapture (s : MState) (p : Pod) : SyncOut :=
  let key := podKey p
  let hasAnn := (lookupAssoc annKey p.annotations).isSome
  let isRunning := memStr key s.table
  let started := hasAnn && !isRunning
  let s1 : MState := if started then ⟨key :: s.table, s.files⟩ else s
  let r2 := if !hasAnn && isRunning then stop s1 key p.name else (s1, [])
  let r3 := if p.deletionTimestamp.isSome && isRunning then stop r2.fst key p.name else (r2.fst, [])
  ⟨r3.fst, if started then [key] else [], r2.snd ++ r3.snd, none⟩

/-- One `/proc` directory entry as seen by `findPidByContainerID`:
its name, whether it is a directory, and the lines of its `cgroup`
file (`none` when the file cannot be opened). -/
structure ProcEntry where
  name : String
  isDir : Bool
  cgroup : Option (List String)
deriving DecidableEq

/-- `findPidByContainerID` (manager.go lines 174-213) over a given
`/proc` listing: skip non-directories and names that `Sscanf "%d"`
rejects, silently skip entries whose `cgroup` cannot be opened, and
return the parsed name of the first entry whose `cgroup` has a line
containing `cid` as a substring; `none` models the NotFound error. -/
def findPidByContainerID : List ProcEntry → String → Option Int
  | [], _ => none
  | d :: rest, cid =>
    if d.isDir = false then findPidByContainerID rest cid
    else
      match sscanfD d.name with
      | none => findPidByContainerID rest cid
      | some _ =>
        match d.cgroup with
        | none => findPidByContainerID rest cid
        | some lines =>
          if lines.any (fun l => containsSeq cid.toList l.toList) then sscanfD d.name
          else findPidByContainerID rest cid

/-- How the spawned child process eventually terminates: by the cancel
handle, or on its own (tool crash / normal exit). -/
inductive ExitKind where
  | canceled
  | selfExit
deriving DecidableEq

/-- Environment of one `runTcpdump` goroutine: the `/proc` contents at
PID-lookup time and how the child, if launched, terminates. -/
structure RunEnv where
  proc : List ProcEntry
  exit : ExitKind
deriving DecidableEq

/-- The `nsenter` argument vector built at manager.go lines 140-150. -/
def nsenterArgs (pid : Int) (limit : String) (pcap : String) : List String :=
  ["-t", toString pid, "-n", "--", "tcpdump", "-Z", "root",
   "-i", "any", "-C", "1", "-W", limit, "-w", pcap]

/-- Result of one `runTcpdump` goroutine body: the manager state when
the goroutine returns, and the argument vector of the `nsenter` child
when one was launched (`none` when the body bailed out earlier). -/
structure RunOut where
  state : MState
  execd : Option (List String)
deriving DecidableEq

/-- Container-URI parsing of manager.go lines 116-121: split the URI on
`"://"`; when fewer than two parts result the URI is invalid (`none`),
otherwise take `parts[1]`, the opaque id. -/
def parseCID (u : String) : Option String :=
  match goSplit u "://" with
  | _ :: cid :: _ => some cid
  | _ => none

/-- `runTcpdump` (manager.go lines 104-170), the goroutine body run for
a started capture: empty container-status list deletes the key and
returns; a container URI without `"://"` logs and returns with the
table untouched; a failed PID lookup deletes the key and returns;
otherwise the child runs until it terminates (by cancel or on its own)
and the body returns with the table untouched in either case. -/
def runTcpdump (env : RunEnv) (s : MState) (p : Pod) (limit : String) (key : String) : RunOut :=
  match p.containerStatuses with
  | [] => ⟨⟨removeStr key s.table, s.files⟩, none⟩
  | cs0 :: _ =>
    match parseCID cs0.containerID with
    | none => ⟨s, none⟩
    | some cid =>
      match findPidByContainerID env.proc cid with
      | none => ⟨⟨removeStr key s.table, s.files⟩, none⟩
      | some pid => ⟨s, some (nsenterArgs pid limit (pcapFilePath p.name))⟩

/-- What the worker's index lookup produced for a key
(controller.go lines 182-209): a lookup error, a missing object, a
`DeletedFinalStateUnknown` tombstone carrying a key, a non-pod object,
or a pod. -/
inductive LookupResult where
  | failure (e : String)
  | absent
  | tombstone (key : String)
  | notPod
  | object (p : Pod)
deriving DecidableEq

/-- `syncHandler` (controller.go lines 182-209): propagate index-lookup
errors; on a missing object or a tombstone stop by key and return
`nil`; on a non-pod object return `nil`; on a pod call `SyncCapture`. -/
def syncHandler (s : MState) (key : String) (r : LookupResult) : MState × Option String :=
  match r with
  | LookupResult.failure e => (s, some e)
  | LookupResult.absent => ((StopCaptureByKey s key).fst, none)
  | LookupResult.tombstone k => ((StopCaptureByKey s k).fst, none)
  | LookupResult.notPod => (s, none)
  | LookupResult.object p => ((SyncCapture s p).state, (SyncCapture s p).err)

/-- Modelled from the spec: the client-go rate-limiting work queue state
visible to `handleErr` — the per-key failure counts backing
`NumRequeues`, and the keys re-added with backoff. The queue itself is
an external collaborator (not under `pkg/`); the spec states its
contract as per-key retry counts that `Forget` clears and
`AddRateLimited` grows. -/
structure Queue where
  retries : List (String × Nat)
  pending : List String
deriving DecidableEq

/-- Modelled from the spec: `queue.NumRequeues(key)`, the accumulated
failure count for a key, zero when never failed or forgotten. -/
def numRequeues (q : Queue) (key : String) : Nat :=
  match lookupAssoc key q.retries with
  | some n => n
  | none => 0

/-- Modelled from the spec: `queue.Forget(key)` clears the key's retry
count. -/
def forgetKey (q : Queue) (key : String) : Queue :=
  ⟨removeAssoc key q.retries, q.pending⟩

/-- Modelled from the spec: `queue.AddRateLimited(key)` increments the
key's retry count and re-adds the key with backoff. -/
def addRateLimited (q : Queue) (key : String) : Queue :=
  ⟨(key, numRequeues q key + 1) :: removeAssoc key q.retries, q.pending ++ [key]⟩

/-- The observable outcome of one `handleErr` call. -/
inductive ErrOutcome where
  | forgotten
  | requeued
  | droppedLogged
deriving DecidableEq

/-- `handleErr` (controller.go lines 211-225): on `nil` forget the key;
on an error re-add with rate-limited backoff while `NumRequeues < 5`,
otherwise forget the key and hand the error to the logger. -/
def handleErr (q : Queue) (key : String) (err : Option String) : Queue × ErrOutcome :=
  match err with
  | none => (forgetKey q key, ErrOutcome.forgotten)
  | some _ =>
    if numRequeues q key < 5 then (addRateLimited q key, ErrOutcome.requeued)
    else (forgetKey q key, ErrOutcome.droppedLogged)

/-- The PidLocator match predicate in the spec's words: a directory
entry counts iff it is a directory, its name parses as a decimal
integer, its `cgroup` file opens, and some line of it contains the
container id as a substring. -/
def procMatches (cid : String) (d : ProcEntry) : Bool :=
  d.isDir && (sscanfD d.name).isSome &&
    (match d.cgroup with
     | some lines => lines.any (fun l => containsSeq cid.toList l.toList)
     | none => false)

/-- The PidLocator contract stated from the spec's words, for the
refinement comparison with `findPidByContainerID`: the first matching
directory's name parsed as an integer PID, `none` on exhaustion. -/
def locateSpec (proc : List ProcEntry) (cid : String) : Option Int :=
  (proc.find? (procMatches cid)).bind (fun d => sscanfD d.name)

theorem memStr_removeStr_self (k : String) (l : List String) :
    memStr k (removeStr k l) = false := by
  induction l with
  | nil => rfl
  | cons y ys ih =>
    by_cases hy : y = k
    · subst hy
      simpa [removeStr] using ih
    · simp [removeStr, hy, memStr, ih]

theorem removeStr_of_not_mem (k : String) (l : List String)
    (h : memStr k l = false) : removeStr k l = l := by
  induction l with
  | nil => rfl
  | cons y ys ih =>
    by_cases hy : y = k
    · subst hy
      simp [memStr] at h
    · simp [memStr, hy] at h
      simp [removeStr, hy, ih h]

theorem isPrefixOf_self (l : List Char) : l.isPrefixOf l = true := by
  induction l with
  | nil => rfl
  | cons c cs ih => simp [List.isPrefixOf, ih]

theorem memStr_filter (x : String) (pred : String → Bool) (l : List String)
    (h : pred x = false) : memStr x (l.filter pred) = false := by
  induction l with
  | nil => rfl
  | cons y ys ih =>
    by_cases hy : y = x
    · subst hy
      simp [List.filter_cons, h, ih]
    · cases hpy : pred y
      · simp [List.filter_cons, hpy, ih]
      · simp [List.filter_cons, hpy, memStr, hy, ih]

theorem lookupAssoc_removeAssoc {β : Type} (k : String) (l : List (String × β)) :
    lookupAssoc k (removeAssoc k l) = none := by
  induction l with
  | nil => rfl
  | cons kv rest ih =>
    obtain ⟨a, b⟩ := kv
    by_cases ha : a = k
    · subst ha
      simpa [removeAssoc] using ih
    · simp [removeAssoc, ha, lookupAssoc, ih]

theorem numRequeues_forgetKey (q : Queue) (key : String) :
    numRequeues (forgetKey q key) key = 0 := by
  simp [numRequeues, forgetKey, lookupAssoc_removeAssoc]

theorem numRequeues_addRateLimited (q : Queue) (key : String) :
    numRequeues (addRateLimited q key) key = numRequeues q key + 1 := by
  simp [numRequeues, addRateLimited, lookupAssoc]

theorem runTcpdump_cases (env : RunEnv) (s : MState) (p : Pod) (limit key : String) :
    (runTcpdump env s p limit key).state = s
    ∨ ((runTcpdump env s p limit key).state = ⟨removeStr key s.table, s.files⟩
        ∧ (runTcpdump env s p limit key).execd = none) := by
  unfold runTcpdump
  split
  · exact Or.inr ⟨rfl, rfl⟩
  · split
    · exact Or.inl rfl
    · split
      · exact Or.inr ⟨rfl, rfl⟩
      · exact Or.inl rfl

theorem findPid_cons (d : ProcEntry) (rest : List ProcEntry) (cid : String) :
    findPidByContainerID (d :: rest) cid =
      if procMatches cid d then sscanfD d.name
      else findPidByContainerID rest cid := by
  cases hdir : d.isDir
  · simp [findPidByContainerID, procMatches, hdir]
  · cases hsd : sscanfD d.name with
    | none => simp [findPidByContainerID, procMatches, hdir, hsd]
    | some v =>
      cases hc : d.cgroup with
      | none => simp [findPidByContainerID, procMatches, hdir, hsd, hc]
      | some lines => simp [findPidByContainerID, procMatches, hdir, hsd, hc]

theorem locateSpec_cons (d : ProcEntry) (rest : List ProcEntry) (cid : String) :
    locateSpec (d :: rest) cid =
      if procMatches cid d then sscanfD d.name
      else locateSpec rest cid := by
  cases hm : procMatches cid d
  · simp [locateSpec, List.find?_cons_of_neg, hm]
  · simp [locateSpec, List.find?_cons_of_pos, hm]

/-- C1: the claim states that the artifact for workload
`(namespace, name)` is `capture-<namespace>-<name>.pcap` and that
stopping `a/app` never deletes `b/app`'s files.  Both parts are false
on the code: `runTcpdump` writes `capture-<name>.pcap` with the
namespace omitted, and stopping `a/app` deletes
`capture-app.pcap`, the very file a capture for `b/app` writes to. -/
theorem c1_counterexample :
    (pcapFilePath "app" ≠ "/var/log/antrea-captures/capture-b-app.pcap")
    ∧ ((runTcpdump ⟨[⟨"7", true, some ["0::/pods/def456/x"]⟩], ExitKind.canceled⟩
          ⟨["b/app"], []⟩
          ⟨"b", "app", "u2", [("tcpdump.antrea.io", "3")], none, [⟨"containerd://def456"⟩]⟩
          "3" "b/app").execd
        = some (nsenterArgs 7 "3" (pcapFilePath "app")))
    ∧ ((StopCaptureByKey
          ⟨["a/app"], ["/var/log/antrea-captures/capture-app.pcap"]⟩
          "a/app").fst.files = []) := by decide

/-- C1 amended: the artifact prefix is `capture-<name>.pcap` with the
namespace omitted; stopping a capture deletes exactly the files
matching `capture-<name>.pcap*`, so for any two pods with the same
name (in any namespaces) stopping one deletes the artifact file the
other's capture writes to. -/
theorem c1_amended (p q : Pod) (s : MState)
    (hname : p.name = q.name)
    (hann : lookupAssoc annKey q.annotations = none)
    (hrun : memStr (podKey q) s.table = true) :
    (SyncCapture s q).state.files = cleanupFiles q.name s.files
    ∧ memStr (pcapFilePath p.name) ((SyncCapture s q).state.files) = false := by
  have hstop :
      (SyncCapture s q).state.files = cleanupFiles q.name s.files := by
    cases hd : q.deletionTimestamp.isSome
    · simp [SyncCapture, stop, hann, hrun, hd]
    · simp [SyncCapture, stop, hann, hrun, hd, memStr_removeStr_self]
  refine ⟨hstop, ?_⟩
  rw [hstop, hname, cleanupFiles]
  exact memStr_filter _ _ _ (by simp [matchesGlob, isPrefixOf_self])

/-- C1 amended witness: concrete instance with `a/app` running and
`b/app`'s artifact on disk; stopping `a/app` deletes it. -/
theorem c1_amended_witness :
    (SyncCapture ⟨["a/app"], ["/var/log/antrea-captures/capture-app.pcap"]⟩
        ⟨"a", "app", "u1", [], none, []⟩).state.files
      = cleanupFiles "app" ["/var/log/antrea-captures/capture-app.pcap"]
    ∧ memStr (pcapFilePath "app")
        ((SyncCapture ⟨["a/app"], ["/var/log/antrea-captures/capture-app.pcap"]⟩
            ⟨"a", "app", "u1", [], none, []⟩).state.files) = false :=
  c1_amended ⟨"b", "app", "u2", [], none, []⟩ ⟨"a", "app", "u1", [], none, []⟩
    ⟨["a/app"], ["/var/log/antrea-captures/capture-app.pcap"]⟩
    (by decide) (by decide) (by decide)

/-- C2: the claim states that an annotated snapshot with an empty
container-status list makes reconcile return a retryable error that
requeues the key.  False on the code: `SyncCapture` always returns
`nil`, so `syncHandler` returns `nil` and `handleErr` forgets the key
instead of requeuing it. -/
theorem c2_counterexample :
    ((syncHandler ⟨[], []⟩ "web/app"
        (LookupResult.object
          ⟨"web", "app", "u1", [("tcpdump.antrea.io", "3")], none, []⟩)).snd = none)
    ∧ ((handleErr ⟨[], []⟩ "web/app" none).snd = ErrOutcome.forgotten) := by decide

/-- C2 amended: for an annotated pod with no container statuses and no
running capture, `SyncCapture` returns `nil` (no requeue) and spawns a
`runTcpdump` goroutine which logs, deletes the just-made table entry
and launches nothing, leaving the table as it was. -/
theorem c2_amended (s : MState) (p : Pod) (env : RunEnv) (v : String)
    (hann : lookupAssoc annKey p.annotations = some v)
    (hcs : p.containerStatuses = [])
    (hnotrun : memStr (podKey p) s.table = false) :
    (SyncCapture s p).err = none
    ∧ (SyncCapture s p).spawned = [podKey p]
    ∧ (runTcpdump env (SyncCapture s p).state p v (podKey p)).state.table = s.table
    ∧ (runTcpdump env (SyncCapture s p).state p v (podKey p)).execd = none := by
  have hstate : (SyncCapture s p).state = ⟨podKey p :: s.table, s.files⟩ := by
    simp [SyncCapture, hann, hnotrun]
  refine ⟨rfl, ?_, ?_, ?_⟩
  · simp [SyncCapture, hann, hnotrun]
  · rw [hstate]
    simp [runTcpdump, hcs, removeStr, removeStr_of_not_mem _ _ hnotrun]
  · rw [hstate]
    simp [runTcpdump, hcs]

/-- C2 amended witness: concrete annotated pod with no container
statuses, empty initial table. -/
theorem c2_amended_witness :
    (SyncCapture ⟨[], []⟩
        ⟨"web", "app", "u1", [("tcpdump.antrea.io", "3")], none, []⟩).err = none
    ∧ (SyncCapture ⟨[], []⟩
        ⟨"web", "app", "u1", [("tcpdump.antrea.io", "3")], none, []⟩).spawned = ["web/app"]
    ∧ (runTcpdump ⟨[], ExitKind.selfExit⟩
        (SyncCapture ⟨[], []⟩
          ⟨"web", "app", "u1", [("tcpdump.antrea.io", "3")], none, []⟩).state
        ⟨"web", "app", "u1", [("tcpdump.antrea.io", "3")], none, []⟩
        "3" "web/app").state.table = ([] : List String)
    ∧ (runTcpdump ⟨[], ExitKind.selfExit⟩
        (SyncCapture ⟨[], []⟩
          ⟨"web", "app", "u1", [("tcpdump.antrea.io", "3")], none, []⟩).state
        ⟨"web", "app", "u1", [("tcpdump.antrea.io", "3")], none, []⟩
        "3" "web/app").execd = none :=
  c2_amended ⟨[], []⟩ ⟨"web", "app", "u1", [("tcpdump.antrea.io", "3")], none, []⟩
    ⟨[], ExitKind.selfExit⟩ "3" (by decide) (by decide) (by decide)

/-- C3: evaluating `SyncCapture` at the failing input — an annotated
pod with a non-nil deletion marker and no running capture.  The start
branch fires (annotation present, not running) before the deletion
branch is consulted, and the deletion branch only stops when
`isRunning` was true at entry, so the reconcile leaves a capture entry
for the terminating pod in the table, spawning a fresh capture. -/
theorem c3_code_eval :
    ((SyncCapture ⟨[], []⟩
        ⟨"web", "app", "u1", [("tcpdump.antrea.io", "3")], some 1,
          [⟨"containerd://abc123"⟩]⟩).state.table = ["web/app"])
    ∧ ((SyncCapture ⟨[], []⟩
        ⟨"web", "app", "u1", [("tcpdump.antrea.io", "3")], some 1,
          [⟨"containerd://abc123"⟩]⟩).spawned = ["web/app"]) := by decide

/-- C4: the claim states that a sync seeing the same identity with a
different UID stops the old capture and starts a new one.  False on
the code: the table stores no UID, and with the annotation present and
an entry in the table `SyncCapture` is a no-op — after starting under
UID `u1`, a sync of the recreated pod with UID `u2` triggers no cancel,
spawns nothing, and leaves the table unchanged. -/
theorem c4_counterexample :
    ((SyncCapture ⟨[], []⟩
        ⟨"web", "app", "u1", [("tcpdump.antrea.io", "3")], none,
          [⟨"containerd://abc123"⟩]⟩).state.table = ["web/app"])
    ∧ ("u1" ≠ "u2")
    ∧ (SyncCapture ⟨["web/app"], []⟩
        ⟨"web", "app", "u2", [("tcpdump.antrea.io", "3")], none,
          [⟨"containerd://def456"⟩]⟩
        = ⟨⟨["web/app"], []⟩, [], [], none⟩) := by decide

/-- C4 amended: when the annotation is present, the identity already
has a table entry, and no deletion marker is set, `SyncCapture` is a
complete no-op regardless of the pod's UID — the old capture is not
stopped and no new one is started (the manager never reads the UID). -/
theorem c4_amended (s : MState) (p : Pod)
    (hann : (lookupAssoc annKey p.annotations).isSome = true)
    (hrun : memStr (podKey p) s.table = true)
    (hdel : p.deletionTimestamp = none) :
    SyncCapture s p = ⟨s, [], [], none⟩ := by
  simp [SyncCapture, hann, hrun, hdel]

/-- C4 amended witness: concrete recreated pod under UID `u2` with the
entry made for UID `u1` still in the table. -/
theorem c4_amended_witness :
    SyncCapture ⟨["web/app"], []⟩
        ⟨"web", "app", "u2", [("tcpdump.antrea.io", "3")], none,
          [⟨"containerd://def456"⟩]⟩
      = ⟨⟨["web/app"], []⟩, [], [], none⟩ :=
  c4_amended ⟨["web/app"], []⟩
    ⟨"web", "app", "u2", [("tcpdump.antrea.io", "3")], none, [⟨"containerd://def456"⟩]⟩
    (by decide) (by decide) (by decide)

/-- C5: the claim states that when the child exits on its own the
supervisor clears the identity's table entry.  False on the code:
after `cmd.Run()` returns, `runTcpdump` returns without touching the
map (the source comment calls map consistency on self-termination a
nice to have), so the entry is still present. -/
theorem c5_counterexample :
    ((runTcpdump ⟨[⟨"4242", true, some ["0::/payload-abc123"]⟩], ExitKind.selfExit⟩
        ⟨["web/app"], []⟩
        ⟨"web", "app", "u1", [("tcpdump.antrea.io", "3")], none,
          [⟨"containerd://abc123"⟩]⟩
        "3" "web/app").execd.isSome = true)
    ∧ ((runTcpdump ⟨[⟨"4242", true, some ["0::/payload-abc123"]⟩], ExitKind.selfExit⟩
        ⟨["web/app"], []⟩
        ⟨"web", "app", "u1", [("tcpdump.antrea.io", "3")], none,
          [⟨"containerd://abc123"⟩]⟩
        "3" "web/app").state.table = ["web/app"]) := by decide

/-- C5 amended: whenever the capture child was actually launched and
exits on its own, the `runTcpdump` goroutine leaves the manager state
exactly as it was — in particular the identity's table entry is NOT
cleared, so a subsequent reconcile of the still-annotated workload
sees it as running and does not start a fresh capture. -/
theorem c5_amended (env : RunEnv) (s : MState) (p : Pod) (limit : String) (key : String)
    (hexec : (runTcpdump env s p limit key).execd.isSome = true)
    (_hexit : env.exit = ExitKind.selfExit) :
    (runTcpdump env s p limit key).state = s := by
  rcases runTcpdump_cases env s p limit key with h | ⟨h1, h2⟩
  · exact h
  · rw [h2] at hexec
    simp at hexec

/-- C5 amended witness: concrete pod whose child is launched (PID 4242
found in the modelled `/proc`) and self-exits; the table entry for
`web/app` survives. -/
theorem c5_amended_witness :
    (runTcpdump ⟨[⟨"4242", true, some ["0::/payload-abc123"]⟩], ExitKind.selfExit⟩
        ⟨["web/app"], ["f"]⟩
        ⟨"web", "app", "u1", [("tcpdump.antrea.io", "3")], none,
          [⟨"containerd://abc123"⟩]⟩
        "3" "web/app").state = ⟨["web/app"], ["f"]⟩ :=
  c5_amended ⟨[⟨"4242", true, some ["0::/payload-abc123"]⟩], ExitKind.selfExit⟩
    ⟨["web/app"], ["f"]⟩
    ⟨"web", "app", "u1", [("tcpdump.antrea.io", "3")], none, [⟨"containerd://abc123"⟩]⟩
    "3" "web/app" (by decide) rfl

/-- C6: evaluating `runTcpdump` at the failing input — a container URI
with no `"://"` separator.  The invalid-URI branch returns without
deleting `captures[key]`, unlike the sibling failure branches (empty
statuses, PID not found), so the reservation for `web/app` is left in
the table and no child is launched. -/
theorem c6_code_eval :
    runTcpdump ⟨[], ExitKind.selfExit⟩ ⟨["web/app"], []⟩
        ⟨"web", "app", "u1", [("tcpdump.antrea.io", "3")], none, [⟨"abc123"⟩]⟩
        "3" "web/app"
      = ⟨⟨["web/app"], []⟩, none⟩ := by decide

/-- C7: `handleErr` forgets the key on success (clearing its retry
count); on an error it re-adds the key with rate-limited backoff
exactly when the accumulated requeue count is below 5, and otherwise
forgets the key and hands the error to the logger. -/
theorem c7_handleErr (q : Queue) (key : String) (err : Option String) :
    (err = none →
      (handleErr q key err).snd = ErrOutcome.forgotten
      ∧ numRequeues (handleErr q key err).fst key = 0)
    ∧ (err ≠ none → numRequeues q key < 5 →
      (handleErr q key err).snd = ErrOutcome.requeued
      ∧ (handleErr q key err).fst.pending = q.pending ++ [key]
      ∧ numRequeues (handleErr q key err).fst key = numRequeues q key + 1)
    ∧ (err ≠ none → 5 ≤ numRequeues q key →
      (handleErr q key err).snd = ErrOutcome.droppedLogged
      ∧ numRequeues (handleErr q key err).fst key = 0) := by
  refine ⟨?_, ?_, ?_⟩
  · rintro rfl
    exact ⟨rfl, numRequeues_forgetKey q key⟩
  · intro hne hlt
    cases err with
    | none => exact absurd rfl hne
    | some e =>
      have hh : handleErr q key (some e) = (addRateLimited q key, ErrOutcome.requeued) := by
        simp [handleErr, hlt]
      rw [hh]
      exact ⟨rfl, by simp [addRateLimited], numRequeues_addRateLimited q key⟩
  · intro hne hge
    cases err with
    | none => exact absurd rfl hne
    | some e =>
      have hnlt : ¬ numRequeues q key < 5 := by omega
      have hh : handleErr q key (some e) = (forgetKey q key, ErrOutcome.droppedLogged) := by
        simp [handleErr, hnlt]
      rw [hh]
      exact ⟨rfl, numRequeues_forgetKey q key⟩

/-- C7 witness: a key with five accumulated failures is dropped and
logged rather than requeued. -/
theorem c7_handleErr_witness :
    (handleErr ⟨[("web/app", 5)], []⟩ "web/app" (some "boom")).snd
      = ErrOutcome.droppedLogged :=
  ((c7_handleErr ⟨[("web/app", 5)], []⟩ "web/app" (some "boom")).2.2
    (by decide) (by decide)).1

/-- C8: `findPidByContainerID` coincides with the spec-worded locate
contract: it considers exactly the directory entries whose names parse
as decimal integers (Sscanf `"%d"`), silently skips entries whose
`cgroup` cannot be opened, returns the name of the first entry whose
`cgroup` has a line containing the container id parsed as an integer
PID, and returns NotFound (`none`) when no entry matches. -/
theorem c8_findPid_locate (proc : List ProcEntry) (cid : String) :
    findPidByContainerID proc cid = locateSpec proc cid := by
  induction proc with
  | nil => rfl
  | cons d rest ih =>
    rw [findPid_cons, locateSpec_cons]
    cases hm : procMatches cid d
    · simp [hm, ih]
    · simp [hm]

/-- C9: `StopCaptureByKey` on an identity with no table entry is a
no-op — the state (table and artifact files) is returned unchanged and
no cancel handle is triggered. -/
theorem c9_stop_noop (s : MState) (key : String)
    (h : memStr key s.table = false) :
    StopCaptureByKey s key = (s, []) := by
  simp [StopCaptureByKey, stop, h]

/-- C9 witness: stopping `a/app` while only `b/app` is tracked leaves
the state untouched and deletes nothing. -/
theorem c9_stop_noop_witness :
    StopCaptureByKey ⟨["b/app"], ["/var/log/antrea-captures/capture-app.pcap"]⟩ "a/app"
      = (⟨["b/app"], ["/var/log/antrea-captures/capture-app.pcap"]⟩, []) :=
  c9_stop_noop ⟨["b/app"], ["/var/log/antrea-captures/capture-app.pcap"]⟩ "a/app" (by decide)

/-- C10: `SyncCapture` returns `nil` for every pod and every state, and
`syncHandler` propagates an error to the worker exactly for
index-lookup failures — every capture-layer condition is absorbed. -/
theorem c10_no_capture_errors (s : MState) (p : Pod) (key : String) (r : LookupResult) :
    (SyncCapture s p).err = none
    ∧ (syncHandler s key r).snd =
        (match r with
         | LookupResult.failure e => some e
         | _ => none) := by
  refine ⟨rfl, ?_⟩
  cases r <;> rfl

end PacketCapture
